import Mathlib

/-!
Shallow embedding of the deabook constraint-generation code
(`src/deabook/utils/CQERZG1.py`, `CQERZG2.py`, `CNLSG1.py`): the CQRZ+G /
CERZ+G model builders, their constraint rules (regression, log-linearization,
elementary Afriat, phase-1 and phase-2 sweet-spot) and objectives.

Pyomo expressions are modelled symbolically by an `Expr` AST over the decision
variables (`alpha`, `beta`, `lamda`, `epsilon_plus`, `epsilon_minus`,
`frontier`, `epsilon`); numeric data is modelled by `ℚ`.  Python exceptions
raised during model construction are modelled by `Except PyErr`.  Python list
indexing is modelled by `List.getD` (all claims use rectangular, in-range
data).  The string sentinels `CET_ADDI`, `CET_MULT`, `RTS_VRS1`, `RTS_CRS`,
`FUN_PROD`, `FUN_COST` come from `deabook/constant.py`, which is not part of
the sources here; the code only compares them for equality, so each option
type has the two known sentinels plus an `other` case for any different
string.
-/

/-- Error composition sentinel (`cet`): `CET_ADDI`, `CET_MULT`, or any other
string value. -/
inductive CET
  | ADDI
  | MULT
  | other (s : String)
deriving DecidableEq

/-- Returns-to-scale sentinel (`rts`): `RTS_VRS1`, `RTS_CRS`, or any other
string value. -/
inductive RTS
  | VRS1
  | CRS
  | other (s : String)
deriving DecidableEq

/-- Frontier type sentinel (`fun`): `FUN_PROD`, `FUN_COST`, or any other
string value. -/
inductive FUN
  | PROD
  | COST
  | other (s : String)
deriving DecidableEq

/-- Python exceptions that the model constructors can raise. -/
inductive PyErr
  | valueError (msg : String)
  | typeError
  | indexError
  | nameError
deriving DecidableEq

/-- Decision variables of the Pyomo models. -/
inductive VarRef
  | alpha (i : Nat)
  | beta (i j : Nat)
  | lamda (k : Nat)
  | epsP (i : Nat)
  | epsM (i : Nat)
  | frontier (i : Nat)
  | eps (i : Nat)
deriving DecidableEq

/-- Symbolic Pyomo expression. -/
inductive Expr
  | const (q : ℚ)
  | var (v : VarRef)
  | add (a b : Expr)
  | sub (a b : Expr)
  | mul (a b : Expr)
  | log (a : Expr)
  | pow (a : Expr) (n : Nat)
deriving DecidableEq

/-- Evaluate an expression under an assignment `env` of the decision
variables; `lg` interprets the (otherwise uninterpreted) `log`. -/
def Expr.eval (lg : ℚ → ℚ) (env : VarRef → ℚ) : Expr → ℚ
  | .const q => q
  | .var v => env v
  | .add a b => a.eval lg env + b.eval lg env
  | .sub a b => a.eval lg env - b.eval lg env
  | .mul a b => a.eval lg env * b.eval lg env
  | .log a => lg (a.eval lg env)
  | .pow a n => (a.eval lg env) ^ n

/-- Comparison operator of a constraint. -/
inductive Comparison
  | le
  | ge
  | eq
deriving DecidableEq

/-- A single Pyomo constraint `lhs cmp rhs`. -/
structure PCon where
  lhs : Expr
  rhs : Expr
  cmp : Comparison
deriving DecidableEq

/-- The operator chosen by `__afriat_rule`/`__sweet_rule`: `NumericValue.__le__`
for `FUN_PROD`, `NumericValue.__ge__` for `FUN_COST`; for any other `fun`
value the local `__operator` is never assigned (`none`), and using it raises at
rule-invocation time. -/
def opOf : FUN → Option Comparison
  | FUN.PROD => some .le
  | FUN.COST => some .ge
  | _ => none

/-- Apply the selected `__operator` to build a value: raises (the unbound
local variable error) at call time when `fun` matched neither sentinel. -/
def withOp (fn : FUN) (k : Comparison → α) : Except PyErr α :=
  match opOf fn with
  | some c => .ok (k c)
  | none => .error .nameError

/-- Python truthiness of a numeric gate entry. -/
def truthy (q : ℚ) : Prop := q ≠ 0

instance (q : ℚ) : Decidable (truthy q) := by
  unfold truthy; infer_instance

/-- `sum(...)` over a generator of expression terms: starts from `0` and adds
each term in order. -/
def sumE (l : List Expr) : Expr := l.foldl Expr.add (Expr.const 0)

/-- Row `i` of a data matrix (`self.x[i]`, in range for all claims). -/
def row (x : List (List ℚ)) (i : Nat) : List ℚ := x.getD i []

/-- `model.alpha[c] + sum(model.beta[c, j] * xe[j] for j in model.J)` —
the VRS linear predictor with coefficients of observation `c` evaluated at
the input row `xe`. -/
def vrsOwn (c : Nat) (xe : List ℚ) (J : Nat) : Expr :=
  .add (.var (.alpha c))
    (sumE ((List.range J).map fun j => .mul (.var (.beta c j)) (.const (xe.getD j 0))))

/-- `sum(model.beta[c, j] * xe[j] for j in model.J)` — the CRS linear
predictor (no intercept). -/
def crsOwn (c : Nat) (xe : List ℚ) (J : Nat) : Expr :=
  sumE ((List.range J).map fun j => .mul (.var (.beta c j)) (.const (xe.getD j 0)))

/-- `sum(model.lamda[k] * ze[k] for k in model.K)` — the contextual term. -/
def zTerm (ze : List ℚ) (K : Nat) : Expr :=
  sumE ((List.range K).map fun k => .mul (.var (.lamda k)) (.const (ze.getD k 0)))

/-- `Set.nextw` on `I = range(I)`: next element in index order, wrapping at
`I-1 → 0`. -/
def nextw (I i : Nat) : Nat := (i + 1) % I

/-- The message of the `ValueError` raised when no rule branch matches. -/
def undefinedMsg : String := "Undefined model parameters."

/-- `CQRZG1.__objective_rule`:
`(1 - tau) * sum(epsilon_plus) + tau * sum(epsilon_minus)`. -/
def quantileObjective (tau : ℚ) (I : Nat) : Expr :=
  .add (.mul (.const (1 - tau)) (sumE ((List.range I).map fun i => .var (.epsP i))))
       (.mul (.const tau) (sumE ((List.range I).map fun i => .var (.epsM i))))

/-- `CERZG1.__squared_objective_rule`:
`(1 - tau) * sum(epsilon_plus ** 2) + tau * sum(epsilon_minus ** 2)`. -/
def squaredObjective (tau : ℚ) (I : Nat) : Expr :=
  .add (.mul (.const (1 - tau)) (sumE ((List.range I).map fun i => .pow (.var (.epsP i)) 2)))
       (.mul (.const tau) (sumE ((List.range I).map fun i => .pow (.var (.epsM i)) 2)))

namespace CQRZG1

/-- `CQRZG1.__regression_rule`: selects the regression constraint rule, or
raises `ValueError("Undefined model parameters.")` when no branch matches.
`zz` is the (non-`None`) contextual matrix, `K = len(zz[0])`. -/
def regression_rule (cet : CET) (rts : RTS) (y : List ℚ) (x : List (List ℚ))
    (zz : List (List ℚ)) (J K : Nat) : Except PyErr (Nat → PCon) :=
  match cet, rts with
  | CET.ADDI, RTS.VRS1 =>
      .ok fun i =>
        { lhs := .const (y.getD i 0)
          rhs := .add (.sub (.sub (vrsOwn i (row x i) J) (zTerm (row zz i) K))
                        (.var (.epsM i))) (.var (.epsP i))
          cmp := .eq }
  | CET.ADDI, RTS.CRS =>
      .ok fun i =>
        { lhs := .const (y.getD i 0)
          rhs := .add (.sub (.add (crsOwn i (row x i) J) (zTerm (row zz i) K))
                        (.var (.epsM i))) (.var (.epsP i))
          cmp := .eq }
  | CET.MULT, _ =>
      .ok fun i =>
        { lhs := .log (.const (y.getD i 0))
          rhs := .add (.sub (.sub (.log (.add (.var (.frontier i)) (.const 1)))
                            (zTerm (row zz i) K))
                        (.var (.epsM i))) (.var (.epsP i))
          cmp := .eq }
  | _, _ => .error (.valueError undefinedMsg)

/-- `CQRZG1.__log_rule`: the log-linearization rule (only ever selected when
`cet == CET_MULT`). -/
def log_rule (cet : CET) (rts : RTS) (x : List (List ℚ)) (J : Nat) :
    Except PyErr (Nat → PCon) :=
  match cet, rts with
  | CET.MULT, RTS.VRS1 =>
      .ok fun i =>
        { lhs := .var (.frontier i)
          rhs := .sub (vrsOwn i (row x i) J) (.const 1)
          cmp := .eq }
  | CET.MULT, RTS.CRS =>
      .ok fun i =>
        { lhs := .var (.frontier i)
          rhs := .sub (crsOwn i (row x i) J) (.const 1)
          cmp := .eq }
  | _, _ => .error (.valueError undefinedMsg)

/-- `CQRZG1.__afriat_rule`: selects the elementary Afriat rule.  Selection
raises `ValueError` only when the `cet`/`rts` combination matches no branch;
an unassigned `__operator` (invalid `fun`) raises only when the returned rule
is invoked (modelled by `PyErr.nameError`). -/
def afriat_rule (cet : CET) (rts : RTS) (fn : FUN) (x : List (List ℚ))
    (I J : Nat) : Except PyErr (Nat → Except PyErr PCon) :=
  match cet, rts with
  | CET.ADDI, RTS.VRS1 =>
      .ok fun i => withOp fn fun c =>
        { lhs := vrsOwn i (row x i) J
          rhs := vrsOwn (nextw I i) (row x i) J
          cmp := c }
  | CET.ADDI, RTS.CRS =>
      .ok fun i => withOp fn fun c =>
        { lhs := crsOwn i (row x i) J
          rhs := crsOwn (nextw I i) (row x i) J
          cmp := c }
  | CET.MULT, RTS.VRS1 =>
      .ok fun i => withOp fn fun c =>
        { lhs := vrsOwn i (row x i) J
          rhs := vrsOwn (nextw I i) (row x i) J
          cmp := c }
  | CET.MULT, RTS.CRS =>
      .ok fun i => withOp fn fun c =>
        { lhs := crsOwn i (row x i) J
          rhs := crsOwn (nextw I i) (row x i) J
          cmp := c }
  | _, _ => .error (.valueError undefinedMsg)

/-- `CQRZG1.__sweet_rule`: selects the phase-1 sweet-spot rule, gated by the
`cutactive` matrix.  Per pair `(i, h)` the rule yields `some` constraint,
`none` for `Constraint.Skip`, or raises (`__operator` unbound) only on a
gated, off-diagonal pair. -/
def sweet_rule (cet : CET) (rts : RTS) (fn : FUN) (x : List (List ℚ))
    (cut : Nat → Nat → ℚ) (J : Nat) :
    Except PyErr (Nat → Nat → Except PyErr (Option PCon)) :=
  match cet, rts with
  | CET.ADDI, RTS.VRS1 =>
      .ok fun i h =>
        if truthy (cut i h) then
          if i = h then .ok none
          else withOp fn fun c =>
            some { lhs := vrsOwn i (row x i) J
                   rhs := vrsOwn h (row x i) J
                   cmp := c }
        else .ok none
  | CET.ADDI, RTS.CRS =>
      .ok fun i h =>
        if truthy (cut i h) then
          if i = h then .ok none
          else withOp fn fun c =>
            some { lhs := crsOwn i (row x i) J
                   rhs := crsOwn h (row x i) J
                   cmp := c }
        else .ok none
  | CET.MULT, RTS.VRS1 =>
      .ok fun i h =>
        if truthy (cut i h) then
          if i = h then .ok none
          else withOp fn fun c =>
            some { lhs := vrsOwn i (row x i) J
                   rhs := vrsOwn h (row x i) J
                   cmp := c }
        else .ok none
  | CET.MULT, RTS.CRS =>
      .ok fun i h =>
        if truthy (cut i h) then
          if i = h then .ok none
          else withOp fn fun c =>
            some { lhs := crsOwn i (row x i) J
                   rhs := crsOwn h (row x i) J
                   cmp := c }
        else .ok none
  | _, _ => .error (.valueError undefinedMsg)

end CQRZG1

namespace CQRZG2

/-- `CQRZG2.__sweet_rule2`: the phase-2 sweet-spot rule, gated by the
normalized `active` matrix.  Note the `CET_ADDI`/`RTS_CRS` branch: unlike
phase 1 it keeps `model.alpha[i]`/`model.alpha[h]` (its body is the same as
the `RTS_VRS1` branch in the source). -/
def sweet_rule2 (cet : CET) (rts : RTS) (fn : FUN) (x : List (List ℚ))
    (act : Nat → Nat → ℚ) (J : Nat) :
    Except PyErr (Nat → Nat → Except PyErr (Option PCon)) :=
  match cet, rts with
  | CET.ADDI, RTS.VRS1 =>
      .ok fun i h =>
        if truthy (act i h) then
          if i = h then .ok none
          else withOp fn fun c =>
            some { lhs := vrsOwn i (row x i) J
                   rhs := vrsOwn h (row x i) J
                   cmp := c }
        else .ok none
  | CET.ADDI, RTS.CRS =>
      .ok fun i h =>
        if truthy (act i h) then
          if i = h then .ok none
          else withOp fn fun c =>
            some { lhs := vrsOwn i (row x i) J
                   rhs := vrsOwn h (row x i) J
                   cmp := c }
        else .ok none
  | CET.MULT, RTS.VRS1 =>
      .ok fun i h =>
        if truthy (act i h) then
          if i = h then .ok none
          else withOp fn fun c =>
            some { lhs := vrsOwn i (row x i) J
                   rhs := vrsOwn h (row x i) J
                   cmp := c }
        else .ok none
  | CET.MULT, RTS.CRS =>
      .ok fun i h =>
        if truthy (act i h) then
          if i = h then .ok none
          else withOp fn fun c =>
            some { lhs := crsOwn i (row x i) J
                   rhs := crsOwn h (row x i) J
                   cmp := c }
        else .ok none
  | _, _ => .error (.valueError undefinedMsg)

end CQRZG2

/-- Sequence a fallible rule over an index list, stopping at the first raised
exception (how Pyomo materializes an indexed `Constraint(…, rule=…)`). -/
def mapE (f : α → Except PyErr β) : List α → Except PyErr (List β)
  | [] => .ok []
  | a :: as => do
      let b ← f a
      let bs ← mapE f as
      pure (b :: bs)

/-- `len(x[0])`: `IndexError` on an empty outer list, otherwise the first
row's length. -/
def len0 (x : List (List ℚ)) : Except PyErr Nat :=
  match x with
  | [] => .error .indexError
  | r :: _ => .ok r.length

/-- `self.z[0]` where `z` may be Python `None`: subscripting `None` raises
`TypeError`, subscripting an empty list raises `IndexError`; otherwise the
whole matrix is returned for the rules to read. -/
def getZ (z : Option (List (List ℚ))) : Except PyErr (List (List ℚ)) :=
  match z with
  | none => .error .typeError
  | some [] => .error .indexError
  | some (r :: rest) => .ok (r :: rest)

/-- The assembled Pyomo model: the objective components in declaration order
(with their active flag) and each constraint block in generation order. -/
structure PyModel where
  objList : List (Bool × Expr)
  regression : List PCon
  logCons : List PCon
  afriat : List PCon
  sweet : List PCon
  sweet2 : List PCon
deriving DecidableEq

/-- The objective components currently active on a model. -/
def activeObjectives (m : PyModel) : List Expr :=
  m.objList.filterMap fun o => if o.1 then some o.2 else none

namespace CQRZG1

/-- `CQRZG1.__init__`: sets, variables, objective and constraint blocks in
source order.  `I = range(len(y))`, `J = range(len(x[0]))`,
`K = range(len(z[0]))`; the `log_rule` block exists only when
`cet == CET_MULT`; the sweet-spot block iterates `I × I` and drops the
`Constraint.Skip` pairs. -/
def build (y : List ℚ) (x : List (List ℚ)) (z : Option (List (List ℚ)))
    (tau : ℚ) (cut : Nat → Nat → ℚ) (cet : CET) (rts : RTS) (fn : FUN) :
    Except PyErr PyModel := do
  let I := y.length
  let J ← len0 x
  let zz ← getZ z
  let K := (zz.headD []).length
  let obj := quantileObjective tau I
  let reg ← regression_rule cet rts y x zz J K
  let regression := (List.range I).map reg
  let logCons ←
    (if cet = CET.MULT then
      (log_rule cet rts x J).map fun lr => (List.range I).map lr
    else .ok [])
  let afr ← afriat_rule cet rts fn x I J
  let afriat ← mapE afr (List.range I)
  let sw ← sweet_rule cet rts fn x cut J
  let sweetNested ← mapE (fun i => mapE (fun h => sw i h) (List.range I)) (List.range I)
  let sweet := sweetNested.flatten.filterMap id
  .ok { objList := [(true, obj)], regression := regression, logCons := logCons,
        afriat := afriat, sweet := sweet, sweet2 := [] }

end CQRZG1

namespace CERZG1

/-- `CERZG1.__init__`: builds the `CQRZG1` model, then
`objective.deactivate()` (the base model's single objective component) and
adds the active `squared_objective`. -/
def build (y : List ℚ) (x : List (List ℚ)) (z : Option (List (List ℚ)))
    (tau : ℚ) (cut : Nat → Nat → ℚ) (cet : CET) (rts : RTS) (fn : FUN) :
    Except PyErr PyModel := do
  let m ← CQRZG1.build y x z tau cut cet rts fn
  pure { m with objList :=
    (m.objList.map fun o => (false, o.2)) ++ [(true, squaredObjective tau y.length)] }

end CERZG1

namespace CQRZG2

/-- `CQRZG2.__init__`: same blocks as `CQRZG1.__init__` (the phase-1 rules
are borrowed via `self._CQRZG1__…`), plus the phase-2 `sweet_rule2` block
gated by `active`.  `act` is the matrix after the
`to_2d_list(trans_list(active))` normalization (`tools.py`, outside these
sources), which per the spec yields an I×I matrix consumed as `[i][h]`. -/
def build (y : List ℚ) (x : List (List ℚ)) (z : Option (List (List ℚ)))
    (tau : ℚ) (cut act : Nat → Nat → ℚ) (cet : CET) (rts : RTS) (fn : FUN) :
    Except PyErr PyModel := do
  let I := y.length
  let J ← len0 x
  let zz ← getZ z
  let K := (zz.headD []).length
  let obj := quantileObjective tau I
  let reg ← CQRZG1.regression_rule cet rts y x zz J K
  let regression := (List.range I).map reg
  let logCons ←
    (if cet = CET.MULT then
      (CQRZG1.log_rule cet rts x J).map fun lr => (List.range I).map lr
    else .ok [])
  let afr ← CQRZG1.afriat_rule cet rts fn x I J
  let afriat ← mapE afr (List.range I)
  let sw ← CQRZG1.sweet_rule cet rts fn x cut J
  let sweetNested ← mapE (fun i => mapE (fun h => sw i h) (List.range I)) (List.range I)
  let sweet := sweetNested.flatten.filterMap id
  let sw2 ← sweet_rule2 cet rts fn x act J
  let sweet2Nested ← mapE (fun i => mapE (fun h => sw2 i h) (List.range I)) (List.range I)
  let sweet2 := sweet2Nested.flatten.filterMap id
  .ok { objList := [(true, obj)], regression := regression, logCons := logCons,
        afriat := afriat, sweet := sweet, sweet2 := sweet2 }

end CQRZG2

namespace CERZG2

/-- `CERZG2.__init__`: builds the `CQRZG2` model, deactivates its (single)
objective component and adds the active `squared_objective`. -/
def build (y : List ℚ) (x : List (List ℚ)) (z : Option (List (List ℚ)))
    (tau : ℚ) (cut act : Nat → Nat → ℚ) (cet : CET) (rts : RTS) (fn : FUN) :
    Except PyErr PyModel := do
  let m ← CQRZG2.build y x z tau cut act cet rts fn
  pure { m with objList :=
    (m.objList.map fun o => (false, o.2)) ++ [(true, squaredObjective tau y.length)] }

end CERZG2

namespace CNLSG1

/-- `CNLSG1.__regression_rule`: the CNLS+G regression rule with a single
signed residual `epsilon`; multiplicative error links `log(y[i])` to
`log(frontier[i] + 1) - epsilon[i]`. -/
def regression_rule (cet : CET) (rts : RTS) (y : List ℚ) (x : List (List ℚ))
    (J : Nat) : Except PyErr (Nat → PCon) :=
  match cet, rts with
  | CET.ADDI, RTS.VRS1 =>
      .ok fun i =>
        { lhs := .const (y.getD i 0)
          rhs := .sub (vrsOwn i (row x i) J) (.var (.eps i))
          cmp := .eq }
  | CET.ADDI, RTS.CRS =>
      .ok fun i =>
        { lhs := .const (y.getD i 0)
          rhs := .sub (crsOwn i (row x i) J) (.var (.eps i))
          cmp := .eq }
  | CET.MULT, _ =>
      .ok fun i =>
        { lhs := .log (.const (y.getD i 0))
          rhs := .sub (.log (.add (.var (.frontier i)) (.const 1))) (.var (.eps i))
          cmp := .eq }
  | _, _ => .error (.valueError undefinedMsg)

end CNLSG1

/-- The spec's predictor: observation `c`'s coefficients evaluated at input
row `xe` — `alpha[c] + Σ_j beta[c,j]·xe[j]` under VRS, `Σ_j beta[c,j]·xe[j]`
under CRS. -/
def specPredictor (rts : RTS) (c : Nat) (xe : List ℚ) (J : Nat) : Expr :=
  if rts = RTS.VRS1 then vrsOwn c xe J else crsOwn c xe J

/-- The spec's orientation operator: `≤` for PRODUCTION frontiers, `≥` for
COST frontiers. -/
def specOp (fn : FUN) : Comparison :=
  if fn = FUN.PROD then Comparison.le else Comparison.ge

/-- The spec's elementary Afriat constraint for observation `i`:
`predictor(i) ⋚ predictor(next(i))`, the "next" neighbor in index order
wrapping at `I-1 → 0`, both predictors evaluated at observation `i`'s own
input row. -/
def specAfriat (rts : RTS) (fn : FUN) (x : List (List ℚ)) (I J i : Nat) : PCon :=
  { lhs := specPredictor rts i (row x i) J
    rhs := specPredictor rts (nextw I i) (row x i) J
    cmp := specOp fn }

/-- The regression rule as the spec states it (§4.3): the linear predictor is
adjusted by `-Σ_k lamda[k]·z[i][k]` — a minus sign — in every contextual
variant, before the residual terms. -/
def specRegressionZ (cet : CET) (rts : RTS) (y : List ℚ) (x : List (List ℚ))
    (zz : List (List ℚ)) (J K : Nat) : Except PyErr (Nat → PCon) :=
  match cet, rts with
  | CET.ADDI, RTS.VRS1 =>
      .ok fun i =>
        { lhs := .const (y.getD i 0)
          rhs := .add (.sub (.sub (vrsOwn i (row x i) J) (zTerm (row zz i) K))
                        (.var (.epsM i))) (.var (.epsP i))
          cmp := .eq }
  | CET.ADDI, RTS.CRS =>
      .ok fun i =>
        { lhs := .const (y.getD i 0)
          rhs := .add (.sub (.sub (crsOwn i (row x i) J) (zTerm (row zz i) K))
                        (.var (.epsM i))) (.var (.epsP i))
          cmp := .eq }
  | CET.MULT, _ =>
      .ok fun i =>
        { lhs := .log (.const (y.getD i 0))
          rhs := .add (.sub (.sub (.log (.add (.var (.frontier i)) (.const 1)))
                            (zTerm (row zz i) K))
                        (.var (.epsM i))) (.var (.epsP i))
          cmp := .eq }
  | _, _ => .error (.valueError undefinedMsg)

/-- Replace a constraint's comparison by `≥`, keeping both operands. -/
def conGe (c : PCon) : PCon := { c with cmp := Comparison.ge }

/-- Replace the comparison of every concavity constraint (elementary Afriat,
phase-1 and phase-2 sweet-spot) by `≥`, leaving the objective, regression and
log-linearization blocks untouched. -/
def modelGe (m : PyModel) : PyModel :=
  { m with afriat := m.afriat.map conGe
           sweet := m.sweet.map conGe
           sweet2 := m.sweet2.map conGe }

/-- The phase-1 sweet-spot emission for pair `(i, h)` under operator `cc`,
as a pure value: `none` is `Constraint.Skip`.  (`useAlpha` selects the
VRS/CRS predictor shape.) -/
def sweetPure (useAlpha : Bool) (cc : Comparison) (x : List (List ℚ))
    (gate : Nat → Nat → ℚ) (J i h : Nat) : Option PCon :=
  if truthy (gate i h) then
    if i = h then none
    else some { lhs := if useAlpha then vrsOwn i (row x i) J else crsOwn i (row x i) J
                rhs := if useAlpha then vrsOwn h (row x i) J else crsOwn h (row x i) J
                cmp := cc }
  else none

/-- The sweet-spot constraint block a build materializes from the pure
emission function: all pairs of `I × I` in row-major order, skips dropped. -/
def sweetBlock (useAlpha : Bool) (cc : Comparison) (x : List (List ℚ))
    (gate : Nat → Nat → ℚ) (I J : Nat) : List PCon :=
  (((List.range I).map fun i =>
      (List.range I).map fun h => sweetPure useAlpha cc x gate J i h).flatten).filterMap id

instance {ε α : Type} [DecidableEq ε] [DecidableEq α] : DecidableEq (Except ε α) := fun x y =>
  match x, y with
  | .ok a, .ok b =>
      if h : a = b then .isTrue (congrArg Except.ok h)
      else .isFalse fun hh => h (Except.ok.inj hh)
  | .error e, .error e2 =>
      if h : e = e2 then .isTrue (congrArg Except.error h)
      else .isFalse fun hh => h (Except.error.inj hh)
  | .ok _, .error _ => .isFalse fun hh => Except.noConfusion hh
  | .error _, .ok _ => .isFalse fun hh => Except.noConfusion hh

theorem okBind {α β : Type} (a : α) (f : α → Except PyErr β) :
    (Except.ok a >>= f) = f a := rfl

theorem errBind {α β : Type} (e : PyErr) (f : α → Except PyErr β) :
    ((Except.error e : Except PyErr α) >>= f) = Except.error e := rfl

theorem okMap {α β : Type} (f : α → β) (a : α) :
    (Except.ok a : Except PyErr α).map f = Except.ok (f a) := rfl

theorem errMap {α β : Type} (f : α → β) (e : PyErr) :
    (Except.error e : Except PyErr α).map f = Except.error e := rfl

theorem withOp_ok {α : Type} {fn : FUN} {cc : Comparison} (hf : opOf fn = some cc)
    (k : Comparison → α) : withOp fn k = .ok (k cc) := by
  unfold withOp
  rw [hf]

theorem mapE_okOf {α β : Type} {f : α → Except PyErr β} {g : α → β}
    (h : ∀ a, f a = .ok (g a)) (l : List α) : mapE f l = .ok (l.map g) := by
  induction l with
  | nil => rfl
  | cons a as ih =>
      simp only [mapE, h a, okBind, ih, List.map_cons]
      rfl

theorem mapE_withOp {α : Type} {fn : FUN} {cc : Comparison} (hf : opOf fn = some cc)
    (g : Nat → Comparison → α) (l : List Nat) :
    mapE (fun i => withOp fn fun c => g i c) l = .ok (l.map fun i => g i cc) :=
  mapE_okOf (fun i => withOp_ok hf (g i)) l

theorem eval_sumE (lg : ℚ → ℚ) (env : VarRef → ℚ) (l : List Expr) :
    (sumE l).eval lg env = (l.map (Expr.eval lg env)).sum := by
  suffices h : ∀ acc : Expr, (l.foldl Expr.add acc).eval lg env
      = acc.eval lg env + (l.map (Expr.eval lg env)).sum by
    simpa [sumE, Expr.eval] using h (Expr.const 0)
  induction l with
  | nil => simp [Expr.eval]
  | cons a as ih =>
      intro acc
      simp [List.foldl_cons, ih, Expr.eval]
      ring

theorem sweet_call_vrs {fn : FUN} {cc : Comparison} (hf : opOf fn = some cc)
    (x : List (List ℚ)) (gate : Nat → Nat → ℚ) (J i h : Nat) :
    (if truthy (gate i h) then
       if i = h then Except.ok none
       else withOp fn fun c =>
         some { lhs := vrsOwn i (row x i) J
                rhs := vrsOwn h (row x i) J
                cmp := c }
     else Except.ok none) = Except.ok (sweetPure true cc x gate J i h) := by
  unfold sweetPure
  split_ifs <;> simp_all [withOp_ok hf]

theorem sweet_call_crs {fn : FUN} {cc : Comparison} (hf : opOf fn = some cc)
    (x : List (List ℚ)) (gate : Nat → Nat → ℚ) (J i h : Nat) :
    (if truthy (gate i h) then
       if i = h then Except.ok none
       else withOp fn fun c =>
         some { lhs := crsOwn i (row x i) J
                rhs := crsOwn h (row x i) J
                cmp := c }
     else Except.ok none) = Except.ok (sweetPure false cc x gate J i h) := by
  unfold sweetPure
  split_ifs <;> simp_all [withOp_ok hf]

theorem buildG1_addi_vrs (y xr : List ℚ) (xs : List (List ℚ))
    (zr : List ℚ) (zs : List (List ℚ)) (tau : ℚ) (cut : Nat → Nat → ℚ)
    (fn : FUN) (cc : Comparison) (hf : opOf fn = some cc) :
    CQRZG1.build y (xr :: xs) (some (zr :: zs)) tau cut CET.ADDI RTS.VRS1 fn =
      .ok { objList := [(true, quantileObjective tau y.length)]
            regression := (List.range y.length).map fun i =>
              { lhs := .const (y.getD i 0)
                rhs := .add (.sub (.sub (vrsOwn i (row (xr :: xs) i) xr.length)
                              (zTerm (row (zr :: zs) i) zr.length))
                            (.var (.epsM i))) (.var (.epsP i))
                cmp := .eq }
            logCons := []
            afriat := (List.range y.length).map fun i =>
              { lhs := vrsOwn i (row (xr :: xs) i) xr.length
                rhs := vrsOwn (nextw y.length i) (row (xr :: xs) i) xr.length
                cmp := cc }
            sweet := sweetBlock true cc (xr :: xs) cut y.length xr.length
            sweet2 := [] } := by
  simp only [CQRZG1.build, len0, getZ, okBind, CQRZG1.regression_rule,
    CQRZG1.log_rule, CQRZG1.afriat_rule, CQRZG1.sweet_rule, List.headD_cons]
  rw [if_neg (by decide : ¬ (CET.ADDI = CET.MULT)), okBind]
  rw [mapE_withOp hf, okBind]
  rw [mapE_okOf (fun i => mapE_okOf
        (fun h => sweet_call_vrs hf (xr :: xs) cut xr.length i h)
        (List.range y.length)), okBind]
  simp only [sweetBlock]

theorem buildG2_addi_vrs (y xr : List ℚ) (xs : List (List ℚ))
    (zr : List ℚ) (zs : List (List ℚ)) (tau : ℚ) (cut act : Nat → Nat → ℚ)
    (fn : FUN) (cc : Comparison) (hf : opOf fn = some cc) :
    CQRZG2.build y (xr :: xs) (some (zr :: zs)) tau cut act CET.ADDI RTS.VRS1 fn =
      .ok { objList := [(true, quantileObjective tau y.length)]
            regression := (List.range y.length).map fun i =>
              { lhs := .const (y.getD i 0)
                rhs := .add (.sub (.sub (vrsOwn i (row (xr :: xs) i) xr.length)
                              (zTerm (row (zr :: zs) i) zr.length))
                            (.var (.epsM i))) (.var (.epsP i))
                cmp := .eq }
            logCons := []
            afriat := (List.range y.length).map fun i =>
              { lhs := vrsOwn i (row (xr :: xs) i) xr.length
                rhs := vrsOwn (nextw y.length i) (row (xr :: xs) i) xr.length
                cmp := cc }
            sweet := sweetBlock true cc (xr :: xs) cut y.length xr.length
            sweet2 := sweetBlock true cc (xr :: xs) act y.length xr.length } := by
  simp only [CQRZG1.build, len0, getZ, okBind, CQRZG1.regression_rule,
    CQRZG1.log_rule, CQRZG1.afriat_rule, CQRZG1.sweet_rule, CQRZG2.build, CQRZG2.sweet_rule2, List.headD_cons]
  rw [if_neg (by decide : ¬ (CET.ADDI = CET.MULT)), okBind]
  rw [mapE_withOp hf, okBind]
  rw [mapE_okOf (fun i => mapE_okOf
        (fun h => sweet_call_vrs hf (xr :: xs) cut xr.length i h)
        (List.range y.length)), okBind]
  rw [mapE_okOf (fun i => mapE_okOf
        (fun h => sweet_call_vrs hf (xr :: xs) act xr.length i h)
        (List.range y.length)), okBind]
  simp only [sweetBlock]


theorem buildG1_addi_crs (y xr : List ℚ) (xs : List (List ℚ))
    (zr : List ℚ) (zs : List (List ℚ)) (tau : ℚ) (cut : Nat → Nat → ℚ)
    (fn : FUN) (cc : Comparison) (hf : opOf fn = some cc) :
    CQRZG1.build y (xr :: xs) (some (zr :: zs)) tau cut CET.ADDI RTS.CRS fn =
      .ok { objList := [(true, quantileObjective tau y.length)]
            regression := (List.range y.length).map fun i =>
              { lhs := .const (y.getD i 0)
                rhs := .add (.sub (.add (crsOwn i (row (xr :: xs) i) xr.length)
                              (zTerm (row (zr :: zs) i) zr.length))
                            (.var (.epsM i))) (.var (.epsP i))
                cmp := .eq }
            logCons := []
            afriat := (List.range y.length).map fun i =>
              { lhs := crsOwn i (row (xr :: xs) i) xr.length
                rhs := crsOwn (nextw y.length i) (row (xr :: xs) i) xr.length
                cmp := cc }
            sweet := sweetBlock false cc (xr :: xs) cut y.length xr.length
            sweet2 := [] } := by
  simp only [CQRZG1.build, len0, getZ, okBind, CQRZG1.regression_rule,
    CQRZG1.log_rule, CQRZG1.afriat_rule, CQRZG1.sweet_rule, List.headD_cons]
  rw [if_neg (by decide : ¬ (CET.ADDI = CET.MULT)), okBind]
  rw [mapE_withOp hf, okBind]
  rw [mapE_okOf (fun i => mapE_okOf
        (fun h => sweet_call_crs hf (xr :: xs) cut xr.length i h)
        (List.range y.length)), okBind]
  simp only [sweetBlock]


theorem buildG2_addi_crs (y xr : List ℚ) (xs : List (List ℚ))
    (zr : List ℚ) (zs : List (List ℚ)) (tau : ℚ) (cut act : Nat → Nat → ℚ)
    (fn : FUN) (cc : Comparison) (hf : opOf fn = some cc) :
    CQRZG2.build y (xr :: xs) (some (zr :: zs)) tau cut act CET.ADDI RTS.CRS fn =
      .ok { objList := [(true, quantileObjective tau y.length)]
            regression := (List.range y.length).map fun i =>
              { lhs := .const (y.getD i 0)
                rhs := .add (.sub (.add (crsOwn i (row (xr :: xs) i) xr.length)
                              (zTerm (row (zr :: zs) i) zr.length))
                            (.var (.epsM i))) (.var (.epsP i))
                cmp := .eq }
            logCons := []
            afriat := (List.range y.length).map fun i =>
              { lhs := crsOwn i (row (xr :: xs) i) xr.length
                rhs := crsOwn (nextw y.length i) (row (xr :: xs) i) xr.length
                cmp := cc }
            sweet := sweetBlock false cc (xr :: xs) cut y.length xr.length
            sweet2 := sweetBlock true cc (xr :: xs) act y.length xr.length } := by
  simp only [CQRZG1.build, len0, getZ, okBind, CQRZG1.regression_rule,
    CQRZG1.log_rule, CQRZG1.afriat_rule, CQRZG1.sweet_rule, CQRZG2.build, CQRZG2.sweet_rule2, List.headD_cons]
  rw [if_neg (by decide : ¬ (CET.ADDI = CET.MULT)), okBind]
  rw [mapE_withOp hf, okBind]
  rw [mapE_okOf (fun i => mapE_okOf
        (fun h => sweet_call_crs hf (xr :: xs) cut xr.length i h)
        (List.range y.length)), okBind]
  rw [mapE_okOf (fun i => mapE_okOf
        (fun h => sweet_call_vrs hf (xr :: xs) act xr.length i h)
        (List.range y.length)), okBind]
  simp only [sweetBlock]


theorem buildG1_mult_vrs (y xr : List ℚ) (xs : List (List ℚ))
    (zr : List ℚ) (zs : List (List ℚ)) (tau : ℚ) (cut : Nat → Nat → ℚ)
    (fn : FUN) (cc : Comparison) (hf : opOf fn = some cc) :
    CQRZG1.build y (xr :: xs) (some (zr :: zs)) tau cut CET.MULT RTS.VRS1 fn =
      .ok { objList := [(true, quantileObjective tau y.length)]
            regression := (List.range y.length).map fun i =>
              { lhs := .log (.const (y.getD i 0))
                rhs := .add (.sub (.sub (.log (.add (.var (.frontier i)) (.const 1)))
                              (zTerm (row (zr :: zs) i) zr.length))
                            (.var (.epsM i))) (.var (.epsP i))
                cmp := .eq }
            logCons := (List.range y.length).map fun i =>
              { lhs := .var (.frontier i)
                rhs := .sub (vrsOwn i (row (xr :: xs) i) xr.length) (.const 1)
                cmp := .eq }
            afriat := (List.range y.length).map fun i =>
              { lhs := vrsOwn i (row (xr :: xs) i) xr.length
                rhs := vrsOwn (nextw y.length i) (row (xr :: xs) i) xr.length
                cmp := cc }
            sweet := sweetBlock true cc (xr :: xs) cut y.length xr.length
            sweet2 := [] } := by
  simp only [CQRZG1.build, len0, getZ, okBind, CQRZG1.regression_rule,
    CQRZG1.log_rule, CQRZG1.afriat_rule, CQRZG1.sweet_rule, List.headD_cons]
  rw [if_pos trivial, okMap, okBind]
  rw [mapE_withOp hf, okBind]
  rw [mapE_okOf (fun i => mapE_okOf
        (fun h => sweet_call_vrs hf (xr :: xs) cut xr.length i h)
        (List.range y.length)), okBind]
  simp only [sweetBlock]


theorem buildG2_mult_vrs (y xr : List ℚ) (xs : List (List ℚ))
    (zr : List ℚ) (zs : List (List ℚ)) (tau : ℚ) (cut act : Nat → Nat → ℚ)
    (fn : FUN) (cc : Comparison) (hf : opOf fn = some cc) :
    CQRZG2.build y (xr :: xs) (some (zr :: zs)) tau cut act CET.MULT RTS.VRS1 fn =
      .ok { objList := [(true, quantileObjective tau y.length)]
            regression := (List.range y.length).map fun i =>
              { lhs := .log (.const (y.getD i 0))
                rhs := .add (.sub (.sub (.log (.add (.var (.frontier i)) (.const 1)))
                              (zTerm (row (zr :: zs) i) zr.length))
                            (.var (.epsM i))) (.var (.epsP i))
                cmp := .eq }
            logCons := (List.range y.length).map fun i =>
              { lhs := .var (.frontier i)
                rhs := .sub (vrsOwn i (row (xr :: xs) i) xr.length) (.const 1)
                cmp := .eq }
            afriat := (List.range y.length).map fun i =>
              { lhs := vrsOwn i (row (xr :: xs) i) xr.length
                rhs := vrsOwn (nextw y.length i) (row (xr :: xs) i) xr.length
                cmp := cc }
            sweet := sweetBlock true cc (xr :: xs) cut y.length xr.length
            sweet2 := sweetBlock true cc (xr :: xs) act y.length xr.length } := by
  simp only [CQRZG1.build, len0, getZ, okBind, CQRZG1.regression_rule,
    CQRZG1.log_rule, CQRZG1.afriat_rule, CQRZG1.sweet_rule, CQRZG2.build, CQRZG2.sweet_rule2, List.headD_cons]
  rw [if_pos trivial, okMap, okBind]
  rw [mapE_withOp hf, okBind]
  rw [mapE_okOf (fun i => mapE_okOf
        (fun h => sweet_call_vrs hf (xr :: xs) cut xr.length i h)
        (List.range y.length)), okBind]
  rw [mapE_okOf (fun i => mapE_okOf
        (fun h => sweet_call_vrs hf (xr :: xs) act xr.length i h)
        (List.range y.length)), okBind]
  simp only [sweetBlock]


theorem buildG1_mult_crs (y xr : List ℚ) (xs : List (List ℚ))
    (zr : List ℚ) (zs : List (List ℚ)) (tau : ℚ) (cut : Nat → Nat → ℚ)
    (fn : FUN) (cc : Comparison) (hf : opOf fn = some cc) :
    CQRZG1.build y (xr :: xs) (some (zr :: zs)) tau cut CET.MULT RTS.CRS fn =
      .ok { objList := [(true, quantileObjective tau y.length)]
            regression := (List.range y.length).map fun i =>
              { lhs := .log (.const (y.getD i 0))
                rhs := .add (.sub (.sub (.log (.add (.var (.frontier i)) (.const 1)))
                              (zTerm (row (zr :: zs) i) zr.length))
                            (.var (.epsM i))) (.var (.epsP i))
                cmp := .eq }
            logCons := (List.range y.length).map fun i =>
              { lhs := .var (.frontier i)
                rhs := .sub (crsOwn i (row (xr :: xs) i) xr.length) (.const 1)
                cmp := .eq }
            afriat := (List.range y.length).map fun i =>
              { lhs := crsOwn i (row (xr :: xs) i) xr.length
                rhs := crsOwn (nextw y.length i) (row (xr :: xs) i) xr.length
                cmp := cc }
            sweet := sweetBlock false cc (xr :: xs) cut y.length xr.length
            sweet2 := [] } := by
  simp only [CQRZG1.build, len0, getZ, okBind, CQRZG1.regression_rule,
    CQRZG1.log_rule, CQRZG1.afriat_rule, CQRZG1.sweet_rule, List.headD_cons]
  rw [if_pos trivial, okMap, okBind]
  rw [mapE_withOp hf, okBind]
  rw [mapE_okOf (fun i => mapE_okOf
        (fun h => sweet_call_crs hf (xr :: xs) cut xr.length i h)
        (List.range y.length)), okBind]
  simp only [sweetBlock]


theorem buildG2_mult_crs (y xr : List ℚ) (xs : List (List ℚ))
    (zr : List ℚ) (zs : List (List ℚ)) (tau : ℚ) (cut act : Nat → Nat → ℚ)
    (fn : FUN) (cc : Comparison) (hf : opOf fn = some cc) :
    CQRZG2.build y (xr :: xs) (some (zr :: zs)) tau cut act CET.MULT RTS.CRS fn =
      .ok { objList := [(true, quantileObjective tau y.length)]
            regression := (List.range y.length).map fun i =>
              { lhs := .log (.const (y.getD i 0))
                rhs := .add (.sub (.sub (.log (.add (.var (.frontier i)) (.const 1)))
                              (zTerm (row (zr :: zs) i) zr.length))
                            (.var (.epsM i))) (.var (.epsP i))
                cmp := .eq }
            logCons := (List.range y.length).map fun i =>
              { lhs := .var (.frontier i)
                rhs := .sub (crsOwn i (row (xr :: xs) i) xr.length) (.const 1)
                cmp := .eq }
            afriat := (List.range y.length).map fun i =>
              { lhs := crsOwn i (row (xr :: xs) i) xr.length
                rhs := crsOwn (nextw y.length i) (row (xr :: xs) i) xr.length
                cmp := cc }
            sweet := sweetBlock false cc (xr :: xs) cut y.length xr.length
            sweet2 := sweetBlock false cc (xr :: xs) act y.length xr.length } := by
  simp only [CQRZG1.build, len0, getZ, okBind, CQRZG1.regression_rule,
    CQRZG1.log_rule, CQRZG1.afriat_rule, CQRZG1.sweet_rule, CQRZG2.build, CQRZG2.sweet_rule2, List.headD_cons]
  rw [if_pos trivial, okMap, okBind]
  rw [mapE_withOp hf, okBind]
  rw [mapE_okOf (fun i => mapE_okOf
        (fun h => sweet_call_crs hf (xr :: xs) cut xr.length i h)
        (List.range y.length)), okBind]
  rw [mapE_okOf (fun i => mapE_okOf
        (fun h => sweet_call_crs hf (xr :: xs) act xr.length i h)
        (List.range y.length)), okBind]
  simp only [sweetBlock]

theorem bindOk {α β : Type} {e : Except PyErr α} {f : α → Except PyErr β} {b : β} :
    (e >>= f) = .ok b ↔ ∃ a, e = .ok a ∧ f a = .ok b := by
  cases e with
  | ok a => simp [okBind]
  | error e => simp [errBind]

theorem bindPure {α β : Type} (e : Except PyErr α) (F : α → β) :
    (e >>= fun a => pure (F a)) = e.map F := by
  cases e <;> rfl

theorem mapE_err_head {β : Type} (f : Nat → Except PyErr β) (e : PyErr)
    (h : f 0 = .error e) (n : Nat) : mapE f (List.range (n + 1)) = .error e := by
  rw [List.range_succ_eq_map]
  simp [mapE, h, errBind]

theorem sweetPure_ge (ua : Bool) (x : List (List ℚ)) (gate : Nat → Nat → ℚ)
    (J i h : Nat) :
    sweetPure ua Comparison.ge x gate J i h
      = Option.map conGe (sweetPure ua Comparison.le x gate J i h) := by
  unfold sweetPure
  split_ifs <;> simp [conGe]

theorem sweetBlock_ge (ua : Bool) (x : List (List ℚ)) (gate : Nat → Nat → ℚ)
    (I J : Nat) :
    sweetBlock ua Comparison.ge x gate I J
      = (sweetBlock ua Comparison.le x gate I J).map conGe := by
  unfold sweetBlock
  rw [List.map_filterMap]
  have hrow : ∀ i : Nat,
      (List.range I).map (fun h => sweetPure ua Comparison.ge x gate J i h)
        = ((List.range I).map fun h => sweetPure ua Comparison.le x gate J i h).map
            (Option.map conGe) := by
    intro i
    rw [List.map_map]
    exact List.map_congr_left fun h _ => sweetPure_ge ua x gate J i h
  calc ((List.range I).map fun i =>
          (List.range I).map fun h => sweetPure ua Comparison.ge x gate J i h).flatten.filterMap id
      = (((List.range I).map fun i =>
          ((List.range I).map fun h => sweetPure ua Comparison.le x gate J i h).map
            (Option.map conGe)).flatten).filterMap id := by
        rw [List.map_congr_left fun i _ => hrow i]
    _ = ((((List.range I).map fun i =>
          (List.range I).map fun h => sweetPure ua Comparison.le x gate J i h).flatten).map
            (Option.map conGe)).filterMap id := by
        rw [List.map_flatten, List.map_map]
        rfl
    _ = _ := by
        rw [List.filterMap_map]
        simp

theorem sweetBlock_cmp (ua : Bool) (cc : Comparison) (x : List (List ℚ))
    (gate : Nat → Nat → ℚ) (I J : Nat) :
    ∀ c ∈ sweetBlock ua cc x gate I J, c.cmp = cc := by
  intro c hc
  unfold sweetBlock at hc
  simp only [List.mem_filterMap, List.mem_flatten, List.mem_map, id_eq] at hc
  obtain ⟨o, ⟨l, ⟨i, hi, rfl⟩, ho⟩, hoc⟩ := hc
  obtain ⟨h, hh, rfl⟩ := List.mem_map.mp ho
  unfold sweetPure at hoc
  split_ifs at hoc <;> simp_all
  all_goals rw [← hoc]

theorem buildG1_objList {y : List ℚ} {x : List (List ℚ)}
    {z : Option (List (List ℚ))} {tau : ℚ} {cut : Nat → Nat → ℚ}
    {cet : CET} {rts : RTS} {fn : FUN} {m : PyModel}
    (h : CQRZG1.build y x z tau cut cet rts fn = .ok m) :
    m.objList = [(true, quantileObjective tau y.length)] := by
  simp only [CQRZG1.build] at h
  obtain ⟨J, hJ, h⟩ := bindOk.mp h
  obtain ⟨zz, hz, h⟩ := bindOk.mp h
  obtain ⟨reg, hreg, h⟩ := bindOk.mp h
  obtain ⟨lc, hlc, h⟩ := bindOk.mp h
  obtain ⟨afr, hafr, h⟩ := bindOk.mp h
  obtain ⟨af, haf, h⟩ := bindOk.mp h
  obtain ⟨sw, hsw, h⟩ := bindOk.mp h
  obtain ⟨sn, hsn, h⟩ := bindOk.mp h
  injection h with h
  rw [← h]

theorem buildG2_objList {y : List ℚ} {x : List (List ℚ)}
    {z : Option (List (List ℚ))} {tau : ℚ} {cut act : Nat → Nat → ℚ}
    {cet : CET} {rts : RTS} {fn : FUN} {m : PyModel}
    (h : CQRZG2.build y x z tau cut act cet rts fn = .ok m) :
    m.objList = [(true, quantileObjective tau y.length)] := by
  simp only [CQRZG2.build] at h
  obtain ⟨J, hJ, h⟩ := bindOk.mp h
  obtain ⟨zz, hz, h⟩ := bindOk.mp h
  obtain ⟨reg, hreg, h⟩ := bindOk.mp h
  obtain ⟨lc, hlc, h⟩ := bindOk.mp h
  obtain ⟨afr, hafr, h⟩ := bindOk.mp h
  obtain ⟨af, haf, h⟩ := bindOk.mp h
  obtain ⟨sw, hsw, h⟩ := bindOk.mp h
  obtain ⟨sn, hsn, h⟩ := bindOk.mp h
  obtain ⟨sw2, hsw2, h⟩ := bindOk.mp h
  obtain ⟨sn2, hsn2, h⟩ := bindOk.mp h
  injection h with h
  rw [← h]

/-- C3: for any gating matrix and any pair `(i, h)`, a sweet-spot constraint
is generated exactly when the gate entry `[i][h]` is truthy and `i ≠ h`;
otherwise the pair is skipped (no constraint), and a self-pair never yields a
constraint regardless of the matrix; this holds for the phase-1 rule (gated
by `cutactive`) and the phase-2 rule (gated by `active`). -/
theorem sweet_gating_C3 (cet : CET) (rts : RTS) (fn : FUN) (x : List (List ℚ))
    (cut act : Nat → Nat → ℚ) (J i h : Nat)
    (hc : cet = CET.ADDI ∨ cet = CET.MULT)
    (hr : rts = RTS.VRS1 ∨ rts = RTS.CRS)
    (hf : fn = FUN.PROD ∨ fn = FUN.COST) :
    ∃ sw sw2,
      CQRZG1.sweet_rule cet rts fn x cut J = .ok sw ∧
      CQRZG2.sweet_rule2 cet rts fn x act J = .ok sw2 ∧
      ((∃ c, sw i h = .ok (some c)) ↔ truthy (cut i h) ∧ i ≠ h) ∧
      (¬(truthy (cut i h) ∧ i ≠ h) → sw i h = .ok none) ∧
      ((∃ c, sw2 i h = .ok (some c)) ↔ truthy (act i h) ∧ i ≠ h) ∧
      (¬(truthy (act i h) ∧ i ≠ h) → sw2 i h = .ok none) := by
  have hop : ∃ cc, opOf fn = some cc := by
    rcases hf with rfl | rfl
    · exact ⟨_, rfl⟩
    · exact ⟨_, rfl⟩
  obtain ⟨cc, hcc⟩ := hop
  rcases hc with rfl | rfl <;> rcases hr with rfl | rfl <;>
    refine ⟨_, _, rfl, rfl, ?_, ?_, ?_, ?_⟩ <;>
    by_cases ht : truthy (cut i h) <;> by_cases ht2 : truthy (act i h) <;>
    by_cases he : i = h <;>
    simp [ht, ht2, he, withOp_ok hcc]

/-- C3 witness: with an all-ones `cutactive` and an all-zero `active`, the
phase-1 rule emits for the off-diagonal pair `(0, 1)` and the phase-2 rule
skips it. -/
theorem sweet_gating_C3_witness :
    ∃ sw sw2,
      CQRZG1.sweet_rule CET.ADDI RTS.VRS1 FUN.PROD [[1], [2]] (fun _ _ => 1) 1 = .ok sw ∧
      CQRZG2.sweet_rule2 CET.ADDI RTS.VRS1 FUN.PROD [[1], [2]] (fun _ _ => 0) 1 = .ok sw2 ∧
      ((∃ c, sw 0 1 = .ok (some c)) ↔ truthy ((fun _ _ => (1 : ℚ)) 0 1) ∧ 0 ≠ 1) ∧
      (¬(truthy ((fun _ _ => (1 : ℚ)) 0 1) ∧ 0 ≠ 1) → sw 0 1 = .ok none) ∧
      ((∃ c, sw2 0 1 = .ok (some c)) ↔ truthy ((fun _ _ => (0 : ℚ)) 0 1) ∧ 0 ≠ 1) ∧
      (¬(truthy ((fun _ _ => (0 : ℚ)) 0 1) ∧ 0 ≠ 1) → sw2 0 1 = .ok none) :=
  sweet_gating_C3 CET.ADDI RTS.VRS1 FUN.PROD [[1], [2]] (fun _ _ => 1) (fun _ _ => 0)
    1 0 1 (Or.inl rfl) (Or.inl rfl) (Or.inl rfl)

/-- C1: at `cet = CET_ADDI`, `rts = RTS_CRS` the phase-2 sweet-spot rule does
NOT have the same algebraic form as the phase-1 rule: for the gated pair
`(0, 1)` phase 1 compares the CRS predictors (no intercept) while phase 2
compares `alpha[0] + Σ beta·x` against `alpha[1] + Σ beta·x` (its branch body
is a copy of the VRS branch), so the two emitted constraints differ. -/
theorem sweet2_addi_crs_alpha_C1 :
    ∃ sw sw2,
      CQRZG1.sweet_rule CET.ADDI RTS.CRS FUN.PROD [[1], [2]] (fun _ _ => 1) 1 = .ok sw ∧
      CQRZG2.sweet_rule2 CET.ADDI RTS.CRS FUN.PROD [[1], [2]] (fun _ _ => 1) 1 = .ok sw2 ∧
      sw 0 1 = .ok (some { lhs := crsOwn 0 (row [[1], [2]] 0) 1
                           rhs := crsOwn 1 (row [[1], [2]] 0) 1
                           cmp := .le }) ∧
      sw2 0 1 = .ok (some { lhs := vrsOwn 0 (row [[1], [2]] 0) 1
                            rhs := vrsOwn 1 (row [[1], [2]] 0) 1
                            cmp := .le }) ∧
      sw 0 1 ≠ sw2 0 1 ∧
      (vrsOwn 0 (row [[1], [2]] 0) 1).eval id
          (fun v => if v = VarRef.alpha 0 then 1 else 0) ≠
        (crsOwn 0 (row [[1], [2]] 0) 1).eval id
          (fun v => if v = VarRef.alpha 0 then 1 else 0) :=
  ⟨_, _, rfl, rfl, by decide, by decide, by decide, by
    norm_num [vrsOwn, crsOwn, sumE, row, Expr.eval, List.range_succ]⟩

/-- C2 (amended): the contextual term `Σ_k lamda[k]·z[i][k]` enters the
regression equation with a minus sign in the additive-VRS and multiplicative
variants (matching the spec's form exactly), but with a PLUS sign in the
additive-CRS variant. -/
theorem regression_context_sign_C2 (y : List ℚ) (x zz : List (List ℚ)) (J K : Nat) :
    CQRZG1.regression_rule CET.ADDI RTS.VRS1 y x zz J K
        = specRegressionZ CET.ADDI RTS.VRS1 y x zz J K ∧
    (∀ rts, CQRZG1.regression_rule CET.MULT rts y x zz J K
        = specRegressionZ CET.MULT rts y x zz J K) ∧
    ∃ f, CQRZG1.regression_rule CET.ADDI RTS.CRS y x zz J K = .ok f ∧ ∀ i,
      f i = { lhs := .const (y.getD i 0)
              rhs := .add (.sub (.add (crsOwn i (row x i) J) (zTerm (row zz i) K))
                        (.var (.epsM i))) (.var (.epsP i))
              cmp := .eq } :=
  ⟨rfl, fun _ => rfl, _, rfl, fun _ => rfl⟩

/-- C2 counterexample: with one observation, `x = [[2]]`, `z = [[5]]`, the
additive-CRS regression constraint differs from the spec's minus-sign form;
evaluating both right-hand sides at `lamda[0] = 1` (all other variables `0`)
gives `5` for the code's constraint and `-5` for the claimed one. -/
theorem regression_crs_sign_C2_cx :
    (CQRZG1.regression_rule CET.ADDI RTS.CRS [10] [[2]] [[5]] 1 1).map (fun f => f 0) ≠
      (specRegressionZ CET.ADDI RTS.CRS [10] [[2]] [[5]] 1 1).map (fun f => f 0) ∧
    ∃ f g, CQRZG1.regression_rule CET.ADDI RTS.CRS [10] [[2]] [[5]] 1 1 = .ok f ∧
      specRegressionZ CET.ADDI RTS.CRS [10] [[2]] [[5]] 1 1 = .ok g ∧
      (f 0).rhs.eval id (fun v => if v = VarRef.lamda 0 then 1 else 0) = 5 ∧
      (g 0).rhs.eval id (fun v => if v = VarRef.lamda 0 then 1 else 0) = -5 :=
  ⟨by decide, _, _, rfl, rfl,
    by norm_num [crsOwn, zTerm, sumE, row, Expr.eval, List.range_succ]; simp,
    by norm_num [crsOwn, zTerm, sumE, row, Expr.eval, List.range_succ]; simp⟩

/-- C5: for every valid configuration, the elementary Afriat block has one
constraint per observation `i`, comparing `i` against its wraparound
successor `(i+1) mod I`: the left side is observation `i`'s own predictor at
its own inputs, the right side the successor's coefficients at the same
`x[i]`, with `≤` for PRODUCTION and `≥` for COST. -/
theorem afriat_form_C5 (y xr : List ℚ) (xs : List (List ℚ)) (zr : List ℚ)
    (zs : List (List ℚ)) (tau : ℚ) (cut : Nat → Nat → ℚ)
    (cet : CET) (rts : RTS) (fn : FUN) (m : PyModel)
    (hc : cet = CET.ADDI ∨ cet = CET.MULT)
    (hr : rts = RTS.VRS1 ∨ rts = RTS.CRS)
    (hf : fn = FUN.PROD ∨ fn = FUN.COST)
    (h : CQRZG1.build y (xr :: xs) (some (zr :: zs)) tau cut cet rts fn = .ok m) :
    m.afriat.length = y.length ∧
    m.afriat = (List.range y.length).map
      (specAfriat rts fn (xr :: xs) y.length xr.length) := by
  have hcc : opOf fn = some (specOp fn) := by
    rcases hf with rfl | rfl <;> rfl
  rcases hc with rfl | rfl <;> rcases hr with rfl | rfl
  · rw [buildG1_addi_vrs y xr xs zr zs tau cut fn _ hcc] at h
    injection h with h
    subst h
    simp [specAfriat, specPredictor]
  · rw [buildG1_addi_crs y xr xs zr zs tau cut fn _ hcc] at h
    injection h with h
    subst h
    constructor
    · simp
    · refine List.map_congr_left fun i _ => ?_
      rcases hf with rfl | rfl <;> simp [specAfriat, specPredictor, specOp]
  · rw [buildG1_mult_vrs y xr xs zr zs tau cut fn _ hcc] at h
    injection h with h
    subst h
    simp [specAfriat, specPredictor]
  · rw [buildG1_mult_crs y xr xs zr zs tau cut fn _ hcc] at h
    injection h with h
    subst h
    constructor
    · simp
    · refine List.map_congr_left fun i _ => ?_
      rcases hf with rfl | rfl <;> simp [specAfriat, specPredictor, specOp]

/-- C5 witness: a concrete 2-observation additive-VRS production build whose
Afriat block is exactly the two spec-form constraints. -/
theorem afriat_form_C5_witness :
    (CQRZG1.build [1, 2] [[1], [2]] (some [[0], [0]]) (1/2) (fun _ _ => 0)
        CET.ADDI RTS.VRS1 FUN.PROD).map PyModel.afriat
      = .ok ((List.range 2).map (specAfriat RTS.VRS1 FUN.PROD [[1], [2]] 2 1)) := by
  obtain ⟨m, hm⟩ : ∃ m, CQRZG1.build [1, 2] [[1], [2]] (some [[0], [0]]) (1/2)
      (fun _ _ => 0) CET.ADDI RTS.VRS1 FUN.PROD = .ok m := ⟨_, rfl⟩
  have h := afriat_form_C5 [1, 2] [1] [[2]] [0] [[0]] (1/2) (fun _ _ => 0)
    CET.ADDI RTS.VRS1 FUN.PROD m (Or.inl rfl) (Or.inl rfl) (Or.inl rfl) hm
  rw [hm, okMap, h.2]
  norm_num

/-- C4: for fixed data and any valid error-composition/returns-to-scale
combination, switching the frontier type from PRODUCTION to COST replaces `≤`
by `≥` in every elementary Afriat and every sweet-spot constraint (phase 1
and phase 2) with both operands unchanged, and leaves the objective,
regression and log-linearization blocks unchanged; under PRODUCTION all those
concavity constraints use `≤` and the regression/log blocks use `==`. -/
theorem cost_flip_C4 (y xr : List ℚ) (xs : List (List ℚ)) (zr : List ℚ)
    (zs : List (List ℚ)) (tau : ℚ) (cut act : Nat → Nat → ℚ)
    (cet : CET) (rts : RTS)
    (hc : cet = CET.ADDI ∨ cet = CET.MULT)
    (hr : rts = RTS.VRS1 ∨ rts = RTS.CRS) :
    CQRZG1.build y (xr :: xs) (some (zr :: zs)) tau cut cet rts FUN.COST
      = (CQRZG1.build y (xr :: xs) (some (zr :: zs)) tau cut cet rts
          FUN.PROD).map modelGe ∧
    CQRZG2.build y (xr :: xs) (some (zr :: zs)) tau cut act cet rts FUN.COST
      = (CQRZG2.build y (xr :: xs) (some (zr :: zs)) tau cut act cet rts
          FUN.PROD).map modelGe ∧
    (∀ m, CQRZG1.build y (xr :: xs) (some (zr :: zs)) tau cut cet rts
        FUN.PROD = .ok m →
      (∀ c ∈ m.afriat, c.cmp = .le) ∧ (∀ c ∈ m.sweet, c.cmp = .le) ∧
      (∀ c ∈ m.regression, c.cmp = .eq) ∧ (∀ c ∈ m.logCons, c.cmp = .eq)) ∧
    (∀ m, CQRZG2.build y (xr :: xs) (some (zr :: zs)) tau cut act cet rts
        FUN.PROD = .ok m →
      (∀ c ∈ m.afriat, c.cmp = .le) ∧ (∀ c ∈ m.sweet, c.cmp = .le) ∧
      (∀ c ∈ m.sweet2, c.cmp = .le)) := by
  rcases hc with rfl | rfl <;> rcases hr with rfl | rfl
  · refine ⟨?_, ?_, ?_, ?_⟩
    · rw [buildG1_addi_vrs y xr xs zr zs tau cut FUN.COST Comparison.ge rfl,
          buildG1_addi_vrs y xr xs zr zs tau cut FUN.PROD Comparison.le rfl, okMap]
      simp only [sweetBlock_ge]
      simp only [modelGe, List.map_map, List.map_nil]
      rfl
    · rw [buildG2_addi_vrs y xr xs zr zs tau cut act FUN.COST Comparison.ge rfl,
          buildG2_addi_vrs y xr xs zr zs tau cut act FUN.PROD Comparison.le rfl, okMap]
      simp only [sweetBlock_ge]
      simp only [modelGe, List.map_map, List.map_nil]
      rfl
    · intro m hm
      rw [buildG1_addi_vrs y xr xs zr zs tau cut FUN.PROD Comparison.le rfl] at hm
      injection hm with hm
      subst hm
      refine ⟨?_, sweetBlock_cmp _ _ _ _ _ _, ?_, ?_⟩ <;>
        intro c hcm <;> simp only [List.mem_map] at hcm <;>
        first
        | (obtain ⟨i, _, rfl⟩ := hcm; rfl)
        | simp_all
    · intro m hm
      rw [buildG2_addi_vrs y xr xs zr zs tau cut act FUN.PROD Comparison.le rfl] at hm
      injection hm with hm
      subst hm
      refine ⟨?_, sweetBlock_cmp _ _ _ _ _ _, sweetBlock_cmp _ _ _ _ _ _⟩
      intro c hcm
      simp only [List.mem_map] at hcm
      obtain ⟨i, _, rfl⟩ := hcm
      rfl
  · refine ⟨?_, ?_, ?_, ?_⟩
    · rw [buildG1_addi_crs y xr xs zr zs tau cut FUN.COST Comparison.ge rfl,
          buildG1_addi_crs y xr xs zr zs tau cut FUN.PROD Comparison.le rfl, okMap]
      simp only [sweetBlock_ge]
      simp only [modelGe, List.map_map, List.map_nil]
      rfl
    · rw [buildG2_addi_crs y xr xs zr zs tau cut act FUN.COST Comparison.ge rfl,
          buildG2_addi_crs y xr xs zr zs tau cut act FUN.PROD Comparison.le rfl, okMap]
      simp only [sweetBlock_ge]
      simp only [modelGe, List.map_map, List.map_nil]
      rfl
    · intro m hm
      rw [buildG1_addi_crs y xr xs zr zs tau cut FUN.PROD Comparison.le rfl] at hm
      injection hm with hm
      subst hm
      refine ⟨?_, sweetBlock_cmp _ _ _ _ _ _, ?_, ?_⟩ <;>
        intro c hcm <;> simp only [List.mem_map] at hcm <;>
        first
        | (obtain ⟨i, _, rfl⟩ := hcm; rfl)
        | simp_all
    · intro m hm
      rw [buildG2_addi_crs y xr xs zr zs tau cut act FUN.PROD Comparison.le rfl] at hm
      injection hm with hm
      subst hm
      refine ⟨?_, sweetBlock_cmp _ _ _ _ _ _, sweetBlock_cmp _ _ _ _ _ _⟩
      intro c hcm
      simp only [List.mem_map] at hcm
      obtain ⟨i, _, rfl⟩ := hcm
      rfl
  · refine ⟨?_, ?_, ?_, ?_⟩
    · rw [buildG1_mult_vrs y xr xs zr zs tau cut FUN.COST Comparison.ge rfl,
          buildG1_mult_vrs y xr xs zr zs tau cut FUN.PROD Comparison.le rfl, okMap]
      simp only [sweetBlock_ge]
      simp only [modelGe, List.map_map, List.map_nil]
      rfl
    · rw [buildG2_mult_vrs y xr xs zr zs tau cut act FUN.COST Comparison.ge rfl,
          buildG2_mult_vrs y xr xs zr zs tau cut act FUN.PROD Comparison.le rfl, okMap]
      simp only [sweetBlock_ge]
      simp only [modelGe, List.map_map, List.map_nil]
      rfl
    · intro m hm
      rw [buildG1_mult_vrs y xr xs zr zs tau cut FUN.PROD Comparison.le rfl] at hm
      injection hm with hm
      subst hm
      refine ⟨?_, sweetBlock_cmp _ _ _ _ _ _, ?_, ?_⟩ <;>
        intro c hcm <;> simp only [List.mem_map] at hcm <;>
        first
        | (obtain ⟨i, _, rfl⟩ := hcm; rfl)
        | simp_all
    · intro m hm
      rw [buildG2_mult_vrs y xr xs zr zs tau cut act FUN.PROD Comparison.le rfl] at hm
      injection hm with hm
      subst hm
      refine ⟨?_, sweetBlock_cmp _ _ _ _ _ _, sweetBlock_cmp _ _ _ _ _ _⟩
      intro c hcm
      simp only [List.mem_map] at hcm
      obtain ⟨i, _, rfl⟩ := hcm
      rfl
  · refine ⟨?_, ?_, ?_, ?_⟩
    · rw [buildG1_mult_crs y xr xs zr zs tau cut FUN.COST Comparison.ge rfl,
          buildG1_mult_crs y xr xs zr zs tau cut FUN.PROD Comparison.le rfl, okMap]
      simp only [sweetBlock_ge]
      simp only [modelGe, List.map_map, List.map_nil]
      rfl
    · rw [buildG2_mult_crs y xr xs zr zs tau cut act FUN.COST Comparison.ge rfl,
          buildG2_mult_crs y xr xs zr zs tau cut act FUN.PROD Comparison.le rfl, okMap]
      simp only [sweetBlock_ge]
      simp only [modelGe, List.map_map, List.map_nil]
      rfl
    · intro m hm
      rw [buildG1_mult_crs y xr xs zr zs tau cut FUN.PROD Comparison.le rfl] at hm
      injection hm with hm
      subst hm
      refine ⟨?_, sweetBlock_cmp _ _ _ _ _ _, ?_, ?_⟩ <;>
        intro c hcm <;> simp only [List.mem_map] at hcm <;>
        first
        | (obtain ⟨i, _, rfl⟩ := hcm; rfl)
        | simp_all
    · intro m hm
      rw [buildG2_mult_crs y xr xs zr zs tau cut act FUN.PROD Comparison.le rfl] at hm
      injection hm with hm
      subst hm
      refine ⟨?_, sweetBlock_cmp _ _ _ _ _ _, sweetBlock_cmp _ _ _ _ _ _⟩
      intro c hcm
      simp only [List.mem_map] at hcm
      obtain ⟨i, _, rfl⟩ := hcm
      rfl

/-- C4 witness: the flip equation and the PRODUCTION `≤` facts at a concrete
additive-VRS build with two observations and an all-ones gate. -/
theorem cost_flip_C4_witness :
    CQRZG1.build [1, 2] [[1], [2]] (some [[0], [0]]) (1/2) (fun _ _ => 1)
        CET.ADDI RTS.VRS1 FUN.COST
      = (CQRZG1.build [1, 2] [[1], [2]] (some [[0], [0]]) (1/2) (fun _ _ => 1)
          CET.ADDI RTS.VRS1 FUN.PROD).map modelGe ∧
    CQRZG2.build [1, 2] [[1], [2]] (some [[0], [0]]) (1/2) (fun _ _ => 1)
        (fun _ _ => 1) CET.ADDI RTS.VRS1 FUN.COST
      = (CQRZG2.build [1, 2] [[1], [2]] (some [[0], [0]]) (1/2) (fun _ _ => 1)
          (fun _ _ => 1) CET.ADDI RTS.VRS1 FUN.PROD).map modelGe ∧
    (∀ m, CQRZG1.build [1, 2] [[1], [2]] (some [[0], [0]]) (1/2) (fun _ _ => 1)
        CET.ADDI RTS.VRS1 FUN.PROD = .ok m →
      (∀ c ∈ m.afriat, c.cmp = .le) ∧ (∀ c ∈ m.sweet, c.cmp = .le) ∧
      (∀ c ∈ m.regression, c.cmp = .eq) ∧ (∀ c ∈ m.logCons, c.cmp = .eq)) ∧
    (∀ m, CQRZG2.build [1, 2] [[1], [2]] (some [[0], [0]]) (1/2) (fun _ _ => 1)
        (fun _ _ => 1) CET.ADDI RTS.VRS1 FUN.PROD = .ok m →
      (∀ c ∈ m.afriat, c.cmp = .le) ∧ (∀ c ∈ m.sweet, c.cmp = .le) ∧
      (∀ c ∈ m.sweet2, c.cmp = .le)) :=
  cost_flip_C4 [1, 2] [1] [[2]] [0] [[0]] (1/2) (fun _ _ => 1) (fun _ _ => 1)
    CET.ADDI RTS.VRS1 (Or.inl rfl) (Or.inl rfl)

/-- C6: under a multiplicative error term the build emits exactly `I`
log-linearization constraints `frontier[i] == predictor(i) - 1` (VRS
predictor with intercept, CRS without), and every regression constraint links
`log(y[i])` to `log(frontier[i] + 1)` rather than `y[i]`; an additive build
emits no log-linearization constraints; the CNLS+G multiplicative regression
rule likewise links `log(y[i])` to `log(frontier[i] + 1)`. -/
theorem log_linearization_C6 (y xr : List ℚ) (xs : List (List ℚ)) (zr : List ℚ)
    (zs : List (List ℚ)) (tau : ℚ) (cut act : Nat → Nat → ℚ)
    (rts : RTS) (fn : FUN) (m : PyModel)
    (hr : rts = RTS.VRS1 ∨ rts = RTS.CRS)
    (hf : fn = FUN.PROD ∨ fn = FUN.COST)
    (h : CQRZG1.build y (xr :: xs) (some (zr :: zs)) tau cut CET.MULT rts fn = .ok m) :
    m.logCons.length = y.length ∧
    m.logCons = (List.range y.length).map (fun i =>
      { lhs := .var (.frontier i)
        rhs := .sub (specPredictor rts i (row (xr :: xs) i) xr.length) (.const 1)
        cmp := .eq }) ∧
    m.regression = (List.range y.length).map (fun i =>
      { lhs := .log (.const (y.getD i 0))
        rhs := .add (.sub (.sub (.log (.add (.var (.frontier i)) (.const 1)))
                      (zTerm (row (zr :: zs) i) zr.length))
                    (.var (.epsM i))) (.var (.epsP i))
        cmp := .eq }) ∧
    (∀ m2, CQRZG1.build y (xr :: xs) (some (zr :: zs)) tau cut CET.ADDI rts fn
        = .ok m2 → m2.logCons = []) ∧
    (∀ m3, CQRZG2.build y (xr :: xs) (some (zr :: zs)) tau cut act CET.MULT rts fn
        = .ok m3 → m3.logCons = m.logCons) ∧
    (∃ f, CNLSG1.regression_rule CET.MULT rts y (xr :: xs) xr.length = .ok f ∧ ∀ i,
       f i = { lhs := .log (.const (y.getD i 0))
               rhs := .sub (.log (.add (.var (.frontier i)) (.const 1))) (.var (.eps i))
               cmp := .eq }) := by
  have hcc : opOf fn = some (specOp fn) := by
    rcases hf with rfl | rfl <;> rfl
  rcases hr with rfl | rfl
  · rw [buildG1_mult_vrs y xr xs zr zs tau cut fn _ hcc] at h
    injection h with h
    subst h
    refine ⟨by simp, by simp [specPredictor], rfl, ?_, ?_, _, rfl, fun _ => rfl⟩
    · intro m2 h2
      rw [buildG1_addi_vrs y xr xs zr zs tau cut fn _ hcc] at h2
      injection h2 with h2
      subst h2
      rfl
    · intro m3 h3
      rw [buildG2_mult_vrs y xr xs zr zs tau cut act fn _ hcc] at h3
      injection h3 with h3
      subst h3
      rfl
  · rw [buildG1_mult_crs y xr xs zr zs tau cut fn _ hcc] at h
    injection h with h
    subst h
    refine ⟨by simp, by simp [specPredictor], rfl, ?_, ?_, _, rfl, fun _ => rfl⟩
    · intro m2 h2
      rw [buildG1_addi_crs y xr xs zr zs tau cut fn _ hcc] at h2
      injection h2 with h2
      subst h2
      rfl
    · intro m3 h3
      rw [buildG2_mult_crs y xr xs zr zs tau cut act fn _ hcc] at h3
      injection h3 with h3
      subst h3
      rfl

/-- C6 witness: a concrete multiplicative-VRS build with two observations
emits exactly two log-linearization constraints. -/
theorem log_linearization_C6_witness :
    (CQRZG1.build [1, 2] [[1], [2]] (some [[0], [0]]) (1/2) (fun _ _ => 0)
        CET.MULT RTS.VRS1 FUN.PROD).map (fun m => m.logCons.length) = .ok 2 := by
  obtain ⟨m, hm⟩ : ∃ m, CQRZG1.build [1, 2] [[1], [2]] (some [[0], [0]]) (1/2)
      (fun _ _ => 0) CET.MULT RTS.VRS1 FUN.PROD = .ok m := ⟨_, rfl⟩
  have h := log_linearization_C6 [1, 2] [1] [[2]] [0] [[0]] (1/2) (fun _ _ => 0)
    (fun _ _ => 0) RTS.VRS1 FUN.PROD m (Or.inl rfl) (Or.inl rfl) hm
  rw [hm, okMap, h.1]
  norm_num

/-- C7: the expectile (CER) models are built from the corresponding quantile
(CQR) models by deactivating the quantile objective and adding the active
squared objective, leaving every constraint block identical; the squared
objective is the quantile objective with each residual squared and the same
asymmetric weights `(1-τ, τ)`. -/
theorem expectile_objective_C7 (y : List ℚ) (x : List (List ℚ))
    (z : Option (List (List ℚ))) (tau : ℚ) (cut act : Nat → Nat → ℚ)
    (cet : CET) (rts : RTS) (fn : FUN) :
    CERZG1.build y x z tau cut cet rts fn
      = (CQRZG1.build y x z tau cut cet rts fn).map (fun m =>
          { m with objList := (m.objList.map fun o => (false, o.2))
              ++ [(true, squaredObjective tau y.length)] }) ∧
    CERZG2.build y x z tau cut act cet rts fn
      = (CQRZG2.build y x z tau cut act cet rts fn).map (fun m =>
          { m with objList := (m.objList.map fun o => (false, o.2))
              ++ [(true, squaredObjective tau y.length)] }) ∧
    (∀ m, CQRZG1.build y x z tau cut cet rts fn = .ok m →
      CERZG1.build y x z tau cut cet rts fn = .ok
        { m with objList := [(false, quantileObjective tau y.length),
                             (true, squaredObjective tau y.length)] } ∧
      activeObjectives
        { m with objList := [(false, quantileObjective tau y.length),
                             (true, squaredObjective tau y.length)] }
          = [squaredObjective tau y.length]) ∧
    (∀ m, CQRZG2.build y x z tau cut act cet rts fn = .ok m →
      CERZG2.build y x z tau cut act cet rts fn = .ok
        { m with objList := [(false, quantileObjective tau y.length),
                             (true, squaredObjective tau y.length)] }) ∧
    (∀ (lg : ℚ → ℚ) (env : VarRef → ℚ) (I : Nat),
      (squaredObjective tau I).eval lg env
        = (quantileObjective tau I).eval lg (fun v => (env v) ^ 2)) := by
  refine ⟨bindPure _ _, bindPure _ _, ?_, ?_, ?_⟩
  · intro m hm
    have ho := buildG1_objList hm
    constructor
    · simp only [CERZG1.build, hm, okBind, ho]
      rfl
    · simp [activeObjectives]
  · intro m hm
    have ho := buildG2_objList hm
    simp only [CERZG2.build, hm, okBind, ho]
    rfl
  · intro lg env I
    simp [squaredObjective, quantileObjective, Expr.eval, eval_sumE,
      List.map_map, Function.comp_def]

/-- C7 witness: at a concrete additive-VRS quantile build, the expectile
build equals it with the objective swapped, and its only active objective is
the squared one. -/
theorem expectile_objective_C7_witness :
    (CERZG1.build [1, 2] [[1], [2]] (some [[0], [0]]) (1/2) (fun _ _ => 0)
        CET.ADDI RTS.VRS1 FUN.PROD).map activeObjectives
      = .ok [squaredObjective (1/2) 2] := by
  obtain ⟨m, hm⟩ : ∃ m, CQRZG1.build [1, 2] [[1], [2]] (some [[0], [0]]) (1/2)
      (fun _ _ => 0) CET.ADDI RTS.VRS1 FUN.PROD = .ok m := ⟨_, rfl⟩
  have h := (expectile_objective_C7 [1, 2] [[1], [2]] (some [[0], [0]]) (1/2)
    (fun _ _ => 0) (fun _ _ => 0) CET.ADDI RTS.VRS1 FUN.PROD).2.2.1 m hm
  rw [h.1, okMap, h.2]
  norm_num

/-- C8: every quantile build's active objective is
`(1-τ)·Σ epsilon_plus + τ·Σ epsilon_minus`; at `τ = 1/2` it evaluates to
`0.5·Σ epsilon_plus + 0.5·Σ epsilon_minus`, and it is linear, not the
squared (least-squares/expectile) form, from which it differs at
`epsilon_plus[0] = 2`. -/
theorem quantile_objective_C8 (y : List ℚ) (x : List (List ℚ))
    (z : Option (List (List ℚ))) (tau : ℚ) (cut act : Nat → Nat → ℚ)
    (cet : CET) (rts : RTS) (fn : FUN) (m mg : PyModel)
    (h1 : CQRZG1.build y x z tau cut cet rts fn = .ok m)
    (h2 : CQRZG2.build y x z tau cut act cet rts fn = .ok mg) :
    activeObjectives m = [quantileObjective tau y.length] ∧
    activeObjectives mg = [quantileObjective tau y.length] ∧
    (∀ (lg : ℚ → ℚ) (env : VarRef → ℚ) (I : Nat),
      (quantileObjective tau I).eval lg env
        = (1 - tau) * (((List.range I).map fun i => env (.epsP i)).sum)
          + tau * (((List.range I).map fun i => env (.epsM i)).sum)) ∧
    (∀ (lg : ℚ → ℚ) (env : VarRef → ℚ) (I : Nat),
      (quantileObjective (1/2) I).eval lg env
        = (1/2) * (((List.range I).map fun i => env (.epsP i)).sum)
          + (1/2) * (((List.range I).map fun i => env (.epsM i)).sum)) ∧
    (quantileObjective (1/2) 1).eval id
        (fun v => if v = VarRef.epsP 0 then 2 else 0) = 1 ∧
    (squaredObjective (1/2) 1).eval id
        (fun v => if v = VarRef.epsP 0 then 2 else 0) = 2 := by
  refine ⟨?_, ?_, ?_, ?_, ?_, ?_⟩
  · rw [activeObjectives, buildG1_objList h1]
    rfl
  · rw [activeObjectives, buildG2_objList h2]
    rfl
  · intro lg env I
    simp [quantileObjective, Expr.eval, eval_sumE, List.map_map, Function.comp_def]
  · intro lg env I
    norm_num [quantileObjective, Expr.eval, eval_sumE, List.map_map, Function.comp_def]
  · norm_num [quantileObjective, Expr.eval, eval_sumE, List.map_map,
      Function.comp_def, List.range_succ]
    decide
  · norm_num [squaredObjective, Expr.eval, eval_sumE, List.map_map,
      Function.comp_def, List.range_succ]
    decide

/-- C8 witness: the concrete additive-VRS quantile builds at `τ = 1/2` with
two observations have the quantile objective as their only active
objective. -/
theorem quantile_objective_C8_witness :
    (CQRZG1.build [1, 2] [[1], [2]] (some [[0], [0]]) (1/2) (fun _ _ => 0)
        CET.ADDI RTS.VRS1 FUN.PROD).map activeObjectives
      = .ok [quantileObjective (1/2) 2] := by
  obtain ⟨m, hm⟩ : ∃ m, CQRZG1.build [1, 2] [[1], [2]] (some [[0], [0]]) (1/2)
      (fun _ _ => 0) CET.ADDI RTS.VRS1 FUN.PROD = .ok m := ⟨_, rfl⟩
  obtain ⟨mg, hmg⟩ : ∃ mg, CQRZG2.build [1, 2] [[1], [2]] (some [[0], [0]]) (1/2)
      (fun _ _ => 0) (fun _ _ => 0) CET.ADDI RTS.VRS1 FUN.PROD = .ok mg := ⟨_, rfl⟩
  have h := quantile_objective_C8 [1, 2] [[1], [2]] (some [[0], [0]]) (1/2)
    (fun _ _ => 0) (fun _ _ => 0) CET.ADDI RTS.VRS1 FUN.PROD m mg hm hmg
  rw [hm, okMap, h.1]
  norm_num

/-- C9 (amended): an unrecognized error-composition or returns-to-scale
sentinel makes construction raise `ValueError("Undefined model parameters.")`
at constraint-rule selection; an unrecognized frontier type alone does NOT
raise that error — rule selection succeeds and, with at least one
observation, construction instead fails with the unbound-`__operator` error
when the first Afriat constraint is generated.  No model is assembled in
either case. -/
theorem undefined_parameters_C9 :
    (∀ (s : String) (y xr : List ℚ) (xs : List (List ℚ)) (zr : List ℚ)
        (zs : List (List ℚ)) (tau : ℚ) (cut : Nat → Nat → ℚ) (rts : RTS) (fn : FUN),
      CQRZG1.build y (xr :: xs) (some (zr :: zs)) tau cut (CET.other s) rts fn
        = .error (.valueError undefinedMsg)) ∧
    (∀ (s : String) (y xr : List ℚ) (xs : List (List ℚ)) (zr : List ℚ)
        (zs : List (List ℚ)) (tau : ℚ) (cut : Nat → Nat → ℚ) (fn : FUN),
      CQRZG1.build y (xr :: xs) (some (zr :: zs)) tau cut CET.ADDI (RTS.other s) fn
        = .error (.valueError undefinedMsg)) ∧
    (∀ (s : String) (y xr : List ℚ) (xs : List (List ℚ)) (zr : List ℚ)
        (zs : List (List ℚ)) (tau : ℚ) (cut : Nat → Nat → ℚ) (fn : FUN),
      CQRZG1.build y (xr :: xs) (some (zr :: zs)) tau cut CET.MULT (RTS.other s) fn
        = .error (.valueError undefinedMsg)) ∧
    (∀ (s : String) (y0 : ℚ) (ys xr : List ℚ) (xs : List (List ℚ)) (zr : List ℚ)
        (zs : List (List ℚ)) (tau : ℚ) (cut : Nat → Nat → ℚ),
      CQRZG1.build (y0 :: ys) (xr :: xs) (some (zr :: zs)) tau cut CET.ADDI
        RTS.VRS1 (FUN.other s) = .error .nameError) ∧
    (∀ (s : String) (y0 : ℚ) (ys xr : List ℚ) (xs : List (List ℚ)) (zr : List ℚ)
        (zs : List (List ℚ)) (tau : ℚ) (cut : Nat → Nat → ℚ),
      CQRZG1.build (y0 :: ys) (xr :: xs) (some (zr :: zs)) tau cut CET.ADDI
        RTS.CRS (FUN.other s) = .error .nameError) ∧
    (∀ (s : String) (y0 : ℚ) (ys xr : List ℚ) (xs : List (List ℚ)) (zr : List ℚ)
        (zs : List (List ℚ)) (tau : ℚ) (cut : Nat → Nat → ℚ),
      CQRZG1.build (y0 :: ys) (xr :: xs) (some (zr :: zs)) tau cut CET.MULT
        RTS.VRS1 (FUN.other s) = .error .nameError) ∧
    (∀ (s : String) (y0 : ℚ) (ys xr : List ℚ) (xs : List (List ℚ)) (zr : List ℚ)
        (zs : List (List ℚ)) (tau : ℚ) (cut : Nat → Nat → ℚ),
      CQRZG1.build (y0 :: ys) (xr :: xs) (some (zr :: zs)) tau cut CET.MULT
        RTS.CRS (FUN.other s) = .error .nameError) := by
  refine ⟨?_, ?_, ?_, ?_, ?_, ?_, ?_⟩ <;> intros <;>
    simp only [CQRZG1.build, len0, getZ, okBind, CQRZG1.regression_rule,
      CQRZG1.log_rule, CQRZG1.afriat_rule, errBind, List.length_cons]
  all_goals first
    | rw [if_pos trivial, errMap, errBind]
    | rw [if_neg (by decide : ¬ (CET.ADDI = CET.MULT)), okBind,
          mapE_err_head _ PyErr.nameError rfl, errBind]
    | rw [if_pos trivial, okMap, okBind,
          mapE_err_head _ PyErr.nameError rfl, errBind]

/-- C9 witness: concrete instances of each amended case — an invalid error
composition and an invalid returns-to-scale raise the `ValueError`, and an
invalid frontier type makes construction fail with the unbound-operator
error instead. -/
theorem undefined_parameters_C9_witness :
    CQRZG1.build [1] [[1]] (some [[1]]) (1/2) (fun _ _ => 1) (CET.other "cet")
        RTS.VRS1 FUN.PROD = .error (.valueError undefinedMsg) ∧
    CQRZG1.build [1] [[1]] (some [[1]]) (1/2) (fun _ _ => 1) CET.ADDI
        (RTS.other "rts") FUN.PROD = .error (.valueError undefinedMsg) ∧
    CQRZG1.build [1] [[1]] (some [[1]]) (1/2) (fun _ _ => 1) CET.MULT
        (RTS.other "rts") FUN.PROD = .error (.valueError undefinedMsg) ∧
    CQRZG1.build [1] [[1]] (some [[1]]) (1/2) (fun _ _ => 1) CET.ADDI
        RTS.VRS1 (FUN.other "fun") = .error .nameError :=
  ⟨undefined_parameters_C9.1 "cet" [1] [1] [] [1] [] (1/2) (fun _ _ => 1)
      RTS.VRS1 FUN.PROD,
   undefined_parameters_C9.2.1 "rts" [1] [1] [] [1] [] (1/2) (fun _ _ => 1)
      FUN.PROD,
   undefined_parameters_C9.2.2.1 "rts" [1] [1] [] [1] [] (1/2) (fun _ _ => 1)
      FUN.PROD,
   undefined_parameters_C9.2.2.2.1 "fun" 1 [] [1] [] [1] [] (1/2)
      (fun _ _ => 1)⟩

/-- C9 counterexample: for the unreachable combination
`(CET_ADDI, RTS_VRS1, fun = "fun")` the constraint-rule selection does NOT
raise `ValueError("Undefined model parameters.")` — `__afriat_rule` returns a
rule — and construction fails with a different error (the unbound
`__operator`), contradicting the claim that every unreachable combination
raises the `ValueError`. -/
theorem undefined_parameters_C9_cx :
    (∃ r, CQRZG1.afriat_rule CET.ADDI RTS.VRS1 (FUN.other "fun") [[1]] 1 1
      = .ok r) ∧
    CQRZG1.build [1] [[1]] (some [[1]]) (1/2) (fun _ _ => 1) CET.ADDI RTS.VRS1
        (FUN.other "fun") ≠ .error (.valueError undefinedMsg) ∧
    CQRZG1.build [1] [[1]] (some [[1]]) (1/2) (fun _ _ => 1) CET.ADDI RTS.VRS1
        (FUN.other "fun") = .error .nameError :=
  ⟨⟨_, rfl⟩, by decide, by decide⟩

/-- C10 (amended): constructing any contextual variant with `z = None` fails
at construction time (subscripting `None` raises `TypeError` when the
contextual set is initialized from `len(z[0])`), and `z = []` fails with
`IndexError`: `z` must have at least one row; its first row may however be
empty, so at least one column is NOT required. -/
theorem z_required_C10 (y xr : List ℚ) (xs : List (List ℚ)) (tau : ℚ)
    (cut act : Nat → Nat → ℚ) (cet : CET) (rts : RTS) (fn : FUN) :
    CQRZG1.build y (xr :: xs) none tau cut cet rts fn = .error .typeError ∧
    CERZG1.build y (xr :: xs) none tau cut cet rts fn = .error .typeError ∧
    CQRZG2.build y (xr :: xs) none tau cut act cet rts fn = .error .typeError ∧
    CERZG2.build y (xr :: xs) none tau cut act cet rts fn = .error .typeError ∧
    CQRZG1.build y (xr :: xs) (some []) tau cut cet rts fn = .error .indexError ∧
    CQRZG2.build y (xr :: xs) (some []) tau cut act cet rts fn
      = .error .indexError := by
  refine ⟨?_, ?_, ?_, ?_, ?_, ?_⟩ <;>
    simp only [CERZG1.build, CERZG2.build, CQRZG1.build, CQRZG2.build, len0,
      getZ, okBind, errBind]

/-- C10 counterexample: `z = [[]]` — one row, zero columns — is accepted:
the build succeeds with an empty contextual index set, refuting the claim
that `z` needs at least one column. -/
theorem z_required_C10_cx :
    ∃ m, CQRZG1.build [1] [[1]] (some [[]]) (1/2) (fun _ _ => 0) CET.ADDI
      RTS.VRS1 FUN.PROD = .ok m :=
  ⟨_, rfl⟩
